import Mathlib

/-!
Verification of the orbital-transform / camera / particle core of the
solar-system visualizer (src/CG-SolarSystem-Final/main.cpp).

Angles, positions, times and matrix entries are modelled as exact rationals;
the C library trigonometric functions (whose values are irrational) enter the
development as an abstract oracle, so that every definition stays executable
and every stated fact about trigonometry is an explicit hypothesis.

The C library function `std::fmod` truncates the quotient toward zero and
keeps the sign of the dividend; `fmodQ` below reproduces exactly that
behaviour on rationals.
-/

namespace SolarSystem

/-- Truncation of a rational toward zero, as C casts and `std::fmod` do:
floor for non-negative arguments, ceiling for negative ones. -/
def ratTrunc (q : ℚ) : ℤ := if 0 ≤ q then ⌊q⌋ else ⌈q⌉

/-- Exact model of C `std::fmod x y`: `x - trunc(x / y) * y`.  The result
has the sign of the dividend `x`, which is the crux of claim C1. -/
def fmodQ (x y : ℚ) : ℚ := x - y * (ratTrunc (x / y) : ℚ)

/-- Evaluation rule for `ratTrunc` on non-negative inputs. -/
theorem ratTrunc_nonneg_eq (q : ℚ) (z : ℤ) (h0 : 0 ≤ q) (h1 : (z : ℚ) ≤ q)
    (h2 : q < z + 1) : ratTrunc q = z := by
  rw [ratTrunc, if_pos h0, Int.floor_eq_iff]
  exact ⟨h1, by exact_mod_cast h2⟩

/-- Evaluation rule for `ratTrunc` on negative inputs. -/
theorem ratTrunc_neg_eq (q : ℚ) (z : ℤ) (h0 : ¬ 0 ≤ q) (h1 : (z : ℚ) - 1 < q)
    (h2 : q ≤ z) : ratTrunc q = z := by
  rw [ratTrunc, if_neg h0, Int.ceil_eq_iff]
  constructor
  · exact_mod_cast h1
  · exact_mod_cast h2

/-- On non-negative inputs `ratTrunc` agrees with the floor function. -/
theorem ratTrunc_eq_floor (q : ℚ) (h : 0 ≤ q) : ratTrunc q = ⌊q⌋ := by
  rw [ratTrunc, if_pos h]

/-- For a non-negative dividend and a positive divisor, `fmodQ` lands in
`[0, y)`.  This is the range fact behind the angle-normalization claims. -/
theorem fmodQ_nonneg_lt (x y : ℚ) (hx : 0 ≤ x) (hy : 0 < y) :
    0 ≤ fmodQ x y ∧ fmodQ x y < y := by
  have hq : (0 : ℚ) ≤ x / y := div_nonneg hx hy.le
  have hf : fmodQ x y = y * Int.fract (x / y) := by
    rw [fmodQ, ratTrunc_eq_floor _ hq, Int.fract, mul_sub,
      mul_div_cancel₀ _ hy.ne']
  constructor
  · rw [hf]; exact mul_nonneg hy.le (Int.fract_nonneg _)
  · rw [hf]
    calc y * Int.fract (x / y) < y * 1 :=
          mul_lt_mul_of_pos_left (Int.fract_lt_one _) hy
    _ = y := mul_one y

/-- `fmodQ` is the identity on `[0, y)`. -/
theorem fmodQ_eq_self (x y : ℚ) (hx : 0 ≤ x) (hxy : x < y) (hy : 0 < y) :
    fmodQ x y = x := by
  have h : ratTrunc (x / y) = 0 := by
    apply ratTrunc_nonneg_eq _ _ (div_nonneg hx hy.le)
    · simpa using div_nonneg hx hy.le
    · have := (div_lt_one hy).mpr hxy
      simpa using this
  rw [fmodQ, h]
  push_cast
  ring

/-- The `Planet` struct of the source (`struct Planet`), with the OpenGL
texture ids kept as opaque naturals. -/
structure Planet where
  name : String
  orbitRadius : ℚ
  orbitSpeed : ℚ
  orbitAngle : ℚ
  rotationSpeed : ℚ
  rotationAngle : ℚ
  size : ℚ
  texture : ℕ
  hasMoon : Bool
  moonDistance : ℚ
  moonSpeed : ℚ
  moonAngle : ℚ
  moonTexture : ℕ
  hasRing : Bool
  ringTexture : ℕ

/-- The angle-advance step at the top of `renderPlanet` (main.cpp:900-909):
each angle accumulates `speed * dt` and is reduced with `std::fmod(_, 360)`;
the moon angle is only touched when `hasMoon` holds. -/
def advance (p : Planet) (dt : ℚ) : Planet :=
  let p2 := { p with
    orbitAngle := fmodQ (p.orbitAngle + p.orbitSpeed * dt) 360,
    rotationAngle := fmodQ (p.rotationAngle + p.rotationSpeed * dt) 360 }
  if p.hasMoon then
    { p2 with moonAngle := fmodQ (p.moonAngle + p.moonSpeed * dt) 360 }
  else p2

/-- A body with a negative orbit speed, as quantified over by claim C1
("this must hold for every fixed speed, including negative speeds"). -/
def retroPlanet : Planet :=
  { name := "Retro", orbitRadius := 1, orbitSpeed := -30, orbitAngle := 0,
    rotationSpeed := 0, rotationAngle := 0, size := 1, texture := 0,
    hasMoon := false, moonDistance := 0, moonSpeed := 0, moonAngle := 0,
    moonTexture := 0, hasRing := false, ringTexture := 0 }

/-- The Earth configuration pushed in `main` (main.cpp:1156-1157). -/
def tierra : Planet :=
  { name := "Tierra", orbitRadius := 7/2, orbitSpeed := 30, orbitAngle := 0,
    rotationSpeed := 60, rotationAngle := 0, size := 3/10, texture := 0,
    hasMoon := true, moonDistance := 7/10, moonSpeed := 200, moonAngle := 0,
    moonTexture := 0, hasRing := false, ringTexture := 0 }

/-- C1 fails as stated: `std::fmod` keeps the sign of its dividend, so one
advance step of a body with `orbitSpeed = -30` from `orbitAngle = 0` with
`dt = 1` leaves the negative angle `-30`, outside `[0, 360)`. -/
theorem C1_counterexample :
    (advance retroPlanet 1).orbitAngle = -30 ∧
    ¬ (0 ≤ (advance retroPlanet 1).orbitAngle) := by
  have h : ratTrunc ((-30 : ℚ) / 360) = 0 := by
    apply ratTrunc_neg_eq <;> norm_num
  have he : (advance retroPlanet 1).orbitAngle = -30 := by
    show fmodQ (0 + (-30) * 1) 360 = -30
    rw [show ((0 : ℚ) + (-30) * 1) = -30 by norm_num, fmodQ, h]
    norm_num
  exact ⟨he, by rw [he]; norm_num⟩

/-- C1, amended: for every body whose current angles and fixed speeds are
non-negative (true of every body the program constructs) and every
`dt >= 0`, a single advance step leaves `orbitAngle`, `rotationAngle` and,
when the body has a moon, `moonAngle` inside `[0, 360)`.  For negative
speeds the result can be negative (see the counterexample). -/
theorem C1_advance_angles_in_range (p : Planet) (dt : ℚ) (hdt : 0 ≤ dt)
    (h1 : 0 ≤ p.orbitSpeed) (h2 : 0 ≤ p.orbitAngle)
    (h3 : 0 ≤ p.rotationSpeed) (h4 : 0 ≤ p.rotationAngle)
    (h5 : 0 ≤ p.moonSpeed) (h6 : 0 ≤ p.moonAngle) :
    (0 ≤ (advance p dt).orbitAngle ∧ (advance p dt).orbitAngle < 360) ∧
    (0 ≤ (advance p dt).rotationAngle ∧ (advance p dt).rotationAngle < 360) ∧
    (p.hasMoon = true →
      0 ≤ (advance p dt).moonAngle ∧ (advance p dt).moonAngle < 360) := by
  have ho := fmodQ_nonneg_lt (p.orbitAngle + p.orbitSpeed * dt) 360
    (add_nonneg h2 (mul_nonneg h1 hdt)) (by norm_num)
  have hr := fmodQ_nonneg_lt (p.rotationAngle + p.rotationSpeed * dt) 360
    (add_nonneg h4 (mul_nonneg h3 hdt)) (by norm_num)
  have hm := fmodQ_nonneg_lt (p.moonAngle + p.moonSpeed * dt) 360
    (add_nonneg h6 (mul_nonneg h5 hdt)) (by norm_num)
  by_cases hc : p.hasMoon <;>
    simp only [advance, hc, if_true, if_false, Bool.false_eq_true,
      reduceIte] <;>
    exact ⟨ho, hr, by intro h; first | exact hm | simp_all⟩

/-- Witness for the amended C1 at the Earth configuration with `dt = 6`
(the end-to-end example of the spec). -/
theorem C1_witness :
    (0 ≤ (advance tierra 6).orbitAngle ∧ (advance tierra 6).orbitAngle < 360) ∧
    (0 ≤ (advance tierra 6).rotationAngle ∧
      (advance tierra 6).rotationAngle < 360) ∧
    (tierra.hasMoon = true →
      0 ≤ (advance tierra 6).moonAngle ∧ (advance tierra 6).moonAngle < 360) :=
  C1_advance_angles_in_range tierra 6 (by norm_num) (by norm_num [tierra])
    (by norm_num [tierra]) (by norm_num [tierra]) (by norm_num [tierra])
    (by norm_num [tierra]) (by norm_num [tierra])

/-! ## Camera controller (key_callback, mouse_callback, UI arrow buttons) -/

/-- `maxPitch` (main.cpp:51). -/
def maxPitch : ℚ := 90

/-- `minPitch` (main.cpp:52). -/
def minPitch : ℚ := -90

/-- `pitchIncrement = pitchSpeed * 0.016f` with `pitchSpeed = 30` (main.cpp:126-127). -/
def pitchIncrement : ℚ := 30 * (16 / 1000)

/-- The yaw update of `mouse_callback` (main.cpp:386,392-394): add the delta,
then subtract 360 once if the result exceeds 360, then add 360 once if it is
negative.  Each correction is applied at most once. -/
def applyYawDelta (yaw d : ℚ) : ℚ :=
  let y1 := yaw + d
  let y2 := if y1 > 360 then y1 - 360 else y1
  if y2 < 0 then y2 + 360 else y2

/-- The pitch update of `mouse_callback` (main.cpp:385,389-390): add the
delta, then clamp above at `maxPitch`, then clamp below at `minPitch`. -/
def applyPitchDelta (p d : ℚ) : ℚ :=
  let p1 := p + d
  let p2 := if p1 > maxPitch then maxPitch else p1
  if p2 < minPitch then minPitch else p2

/-- One camera input event: arrow-key / UI-button step up or down
(main.cpp:327-338, 1285-1293), the R-key / UI reset (main.cpp:339-344,
1274-1278), or a mouse movement already multiplied by the sensitivity
(main.cpp:382-394).  The state is the pair (pitch, yaw). -/
inductive CamOp where
  | keyUp : CamOp
  | keyDown : CamOp
  | reset : CamOp
  | mouse : ℚ → ℚ → CamOp

/-- Effect of one camera input event on (pitch, yaw), exactly as the
callbacks mutate the globals `cameraPitch` and `cameraYaw`. -/
def camStep : ℚ × ℚ → CamOp → ℚ × ℚ
  | (p, y), CamOp.keyUp =>
      (if p + pitchIncrement > maxPitch then maxPitch else p + pitchIncrement, y)
  | (p, y), CamOp.keyDown =>
      (if p - pitchIncrement < minPitch then minPitch else p - pitchIncrement, y)
  | _, CamOp.reset => (0, 0)
  | (p, y), CamOp.mouse dp dy => (applyPitchDelta p dp, applyYawDelta y dy)

/-- Camera state after a sequence of input events, from the session-start
state `(0, 0)` (main.cpp:124-125). -/
def camAfter (ops : List CamOp) : ℚ × ℚ := ops.foldl camStep (0, 0)

/-- C2 fails as stated: the wrap corrects by at most one period, so a single
delta of 800 from yaw 0 yields 440, and 350 + 10 lands exactly on 360;
neither is in `[0, 360)`. -/
theorem C2_counterexample :
    (applyYawDelta 0 800 = 440 ∧ ¬ (applyYawDelta 0 800 < 360)) ∧
    (applyYawDelta 350 10 = 360 ∧ ¬ (applyYawDelta 350 10 < 360)) := by
  have h1 : applyYawDelta 0 800 = 440 := by norm_num [applyYawDelta]
  have h2 : applyYawDelta 350 10 = 360 := by norm_num [applyYawDelta]
  refine ⟨⟨h1, ?_⟩, ⟨h2, ?_⟩⟩
  · rw [h1]; norm_num
  · rw [h2]; norm_num

/-- One yaw update keeps `[0, 360]` provided the delta itself lies in
`[-360, 360]` (then the single compensation of 360 is enough). -/
theorem applyYawDelta_mem (y d : ℚ) (hy0 : 0 ≤ y) (hy1 : y ≤ 360)
    (hd0 : -360 ≤ d) (hd1 : d ≤ 360) :
    0 ≤ applyYawDelta y d ∧ applyYawDelta y d ≤ 360 := by
  rw [applyYawDelta]
  split_ifs <;> constructor <;> linarith

/-- Fold form of `applyYawDelta_mem` over a delta sequence. -/
theorem yaw_fold_mem (ds : List ℚ) (y : ℚ) (hy0 : 0 ≤ y) (hy1 : y ≤ 360)
    (h : ∀ d ∈ ds, -360 ≤ d ∧ d ≤ 360) :
    0 ≤ ds.foldl applyYawDelta y ∧ ds.foldl applyYawDelta y ≤ 360 := by
  induction ds generalizing y with
  | nil => exact ⟨hy0, hy1⟩
  | cons d ds ih =>
      have hd := h d (List.mem_cons_self d ds)
      have hstep := applyYawDelta_mem y d hy0 hy1 hd.1 hd.2
      exact ih (applyYawDelta y d) hstep.1 hstep.2
        (fun e he => h e (List.mem_cons_of_mem d he))

/-- C2, amended: after any sequence of yaw-delta applications starting from
the initial yaw 0, the yaw lies in the closed interval `[0, 360]`, provided
every delta lies in `[-360, 360]`.  The wrap compensates by at most one
period, so a delta beyond 360 in magnitude can escape (yaw 440 after a
delta of 800) and the value 360 itself is reachable (350 + 10). -/
theorem C2_yaw_bounded (ds : List ℚ) (h : ∀ d ∈ ds, -360 ≤ d ∧ d ≤ 360) :
    0 ≤ ds.foldl applyYawDelta 0 ∧ ds.foldl applyYawDelta 0 ≤ 360 :=
  yaw_fold_mem ds 0 (by norm_num) (by norm_num) h

/-- Witness for the amended C2 on the delta sequence `[100, -200, 350]`. -/
theorem C2_witness :
    0 ≤ [(100 : ℚ), -200, 350].foldl applyYawDelta 0 ∧
    [(100 : ℚ), -200, 350].foldl applyYawDelta 0 ≤ 360 :=
  C2_yaw_bounded [100, -200, 350]
    (by intro d hd; fin_cases hd <;> norm_num)

/-- Every single camera event keeps the pitch inside `[minPitch, maxPitch]`. -/
theorem camStep_pitch_mem (s : ℚ × ℚ) (op : CamOp)
    (h0 : minPitch ≤ s.1) (h1 : s.1 ≤ maxPitch) :
    minPitch ≤ (camStep s op).1 ∧ (camStep s op).1 ≤ maxPitch := by
  obtain ⟨p, y⟩ := s
  cases op with
  | keyUp =>
      simp only [camStep]
      split_ifs <;> constructor <;>
        simp_all [minPitch, maxPitch, pitchIncrement] <;> linarith
  | keyDown =>
      simp only [camStep]
      split_ifs <;> constructor <;>
        simp_all [minPitch, maxPitch, pitchIncrement] <;> linarith
  | reset => simp [camStep, minPitch, maxPitch]
  | mouse dp dy =>
      simp only [camStep, applyPitchDelta]
      split_ifs <;> constructor <;>
        simp_all [minPitch, maxPitch] <;> linarith

/-- C3, confirmed: after any sequence of camera input events (keyboard
steps, resets, or mouse deltas of any magnitude, sensitivity included),
the camera pitch lies in `[minPitch, maxPitch] = [-90, 90]`. -/
theorem C3_pitch_clamped (ops : List CamOp) :
    minPitch ≤ (camAfter ops).1 ∧ (camAfter ops).1 ≤ maxPitch := by
  rw [camAfter]
  have main : ∀ s : ℚ × ℚ, minPitch ≤ s.1 → s.1 ≤ maxPitch →
      minPitch ≤ (ops.foldl camStep s).1 ∧ (ops.foldl camStep s).1 ≤ maxPitch := by
    induction ops with
    | nil => exact fun s h0 h1 => ⟨h0, h1⟩
    | cons op ops ih =>
        intro s h0 h1
        have hstep := camStep_pitch_mem s op h0 h1
        exact ih (camStep s op) hstep.1 hstep.2
  exact main (0, 0) (by norm_num [minPitch]) (by norm_num [maxPitch])

/-! ## Meteor particle scheduler and the pause flag (main loop, main.cpp:1217-1250) -/

/-- The `Meteorite` struct of the source; the position's z component is
always 0 and is omitted. -/
structure Meteorite where
  px : ℚ
  py : ℚ
  vx : ℚ
  vy : ℚ
  isVisible : Bool
  initialDelay : ℚ

/-- One per-slot scheduler step (main.cpp:1223-1242).  `rx`, `ry` are the
randomized spawn coordinates and `jitter` the randomized extra delay drawn
on this tick (oracles for `rand()`).  `dt` here is the RAW frame delta
time: the source uses `deltaTime`, not `effectiveDeltaTime`, at
main.cpp:1237.  On activation the slot is repositioned AND its next event
time is scheduled (`initialDelay = totalTime + 3 + jitter`); on
deactivation only `isVisible` is cleared. -/
def updateMeteorite (totalTime dt rx ry jitter : ℚ) (m : Meteorite) :
    Meteorite :=
  if m.isVisible = false then
    if totalTime > m.initialDelay then
      { m with
        isVisible := true
        px := rx
        py := ry
        initialDelay := totalTime + 3 + jitter }
    else m
  else
    if m.px + m.vx * dt > 12/10 ∨ m.py + m.vy * dt < -(12/10) then
      { m with
        px := m.px + m.vx * dt
        py := m.py + m.vy * dt
        isVisible := false }
    else
      { m with
        px := m.px + m.vx * dt
        py := m.py + m.vy * dt }

/-- The per-frame meteor block (main.cpp:1221-1250): when the meteor toggle
is off every slot is hidden; otherwise the scheduler step runs with the raw
`deltaTime`.  The pause flag is accepted as an argument to make claim C4
statable, but — exactly as in the source — the meteor path never reads it. -/
def meteorAfterFrame (paused showMet : Bool) (totalTime dt rx ry jitter : ℚ)
    (m : Meteorite) : Meteorite :=
  if showMet then updateMeteorite totalTime dt rx ry jitter m
  else { m with isVisible := false }

/-- `effectiveDeltaTime = animationPaused ? 0.0f : deltaTime` (main.cpp:1218). -/
def effectiveDt (paused : Bool) (dt : ℚ) : ℚ := if paused then 0 else dt

/-- A planet's state after one frame: `renderPlanet` receives
`effectiveDeltaTime` (main.cpp:1403). -/
def planetAfterFrame (paused : Bool) (dt : ℚ) (p : Planet) : Planet :=
  advance p (effectiveDt paused dt)

/-- Whether a meteor slot is drawn this frame (main.cpp:1412, 1424-1430):
only when the toggle is on and the slot is visible. -/
def meteorDrawn (showMet : Bool) (m : Meteorite) : Bool :=
  showMet && m.isVisible

/-- A visible meteor at the origin moving down-right, as in the spawn
convention of the source. -/
def movingMeteor : Meteorite :=
  { px := 0, py := 0, vx := 1/2, vy := -1/2, isVisible := true,
    initialDelay := 0 }

/-- C4 fails as stated: on a paused frame (`paused = true`) with raw
`dt = 1`, the visible meteor's position still advances from `(0, 0)` to
`(1/2, -1/2)`, because the meteor update uses `deltaTime` rather than
`effectiveDeltaTime`. -/
theorem C4_counterexample :
    (meteorAfterFrame true true 10 1 0 0 0 movingMeteor).px = 1/2 ∧
    (meteorAfterFrame true true 10 1 0 0 0 movingMeteor).py = -(1/2) ∧
    movingMeteor.px = 0 ∧ movingMeteor.py = 0 ∧
    ((1 : ℚ)/2 ≠ 0 ∧ (-(1 : ℚ)/2 ≠ 0)) := by
  norm_num [meteorAfterFrame, updateMeteorite, movingMeteor]

/-- C4, amended: on a paused frame the simulation `dt` for BODIES is zero —
no body's `orbitAngle`, `rotationAngle` or `moonAngle` changes — and camera
input remains live (the input callbacks never read the pause flag), but the
meteor positions are NOT frozen: a visible meteor still moves by
`velocity * deltaTime` with the raw frame delta. -/
theorem C4_paused_frame (dt : ℚ) (p : Planet)
    (h1 : 0 ≤ p.orbitAngle) (h2 : p.orbitAngle < 360)
    (h3 : 0 ≤ p.rotationAngle) (h4 : p.rotationAngle < 360)
    (h5 : p.hasMoon = true → 0 ≤ p.moonAngle ∧ p.moonAngle < 360) :
    planetAfterFrame true dt p = p ∧
    (∀ (t rx ry j : ℚ) (m : Meteorite), m.isVisible = true →
      (meteorAfterFrame true true t dt rx ry j m).px = m.px + m.vx * dt ∧
      (meteorAfterFrame true true t dt rx ry j m).py = m.py + m.vy * dt) := by
  constructor
  · obtain ⟨nm, orad, ospd, oang, rspd, rang, sz, tex, hmoon, mdist, mspd,
      mang, mtex, hring, rtex⟩ := p
    have ho : fmodQ oang 360 = oang := fmodQ_eq_self _ _ h1 h2 (by norm_num)
    have hr : fmodQ rang 360 = rang := fmodQ_eq_self _ _ h3 h4 (by norm_num)
    cases hmoon with
    | false => simp [planetAfterFrame, effectiveDt, advance, ho, hr]
    | true =>
        have hmo : fmodQ mang 360 = mang :=
          fmodQ_eq_self _ _ (h5 rfl).1 (h5 rfl).2 (by norm_num)
        simp [planetAfterFrame, effectiveDt, advance, ho, hr, hmo]
  · intro t rx ry j m hm
    rw [meteorAfterFrame, if_pos rfl, updateMeteorite, if_neg (by simp [hm])]
    split_ifs <;> exact ⟨rfl, rfl⟩

/-- Witness for the amended C4 at the Earth configuration with `dt = 1`. -/
theorem C4_witness :
    planetAfterFrame true 1 tierra = tierra ∧
    (∀ (t rx ry j : ℚ) (m : Meteorite), m.isVisible = true →
      (meteorAfterFrame true true t 1 rx ry j m).px = m.px + m.vx * 1 ∧
      (meteorAfterFrame true true t 1 rx ry j m).py = m.py + m.vy * 1) :=
  C4_paused_frame 1 tierra (by norm_num [tierra]) (by norm_num [tierra])
    (by norm_num [tierra]) (by norm_num [tierra])
    (fun _ => by norm_num [tierra])

/-- A visible meteor that exits the right bound on the next tick. -/
def exitingMeteor : Meteorite :=
  { px := 1, py := 0, vx := 1/2, vy := 0, isVisible := true,
    initialDelay := 0 }

/-- C5 fails as stated: when the exiting meteor goes Dormant on the tick at
`totalTime = 10`, its `initialDelay` (the next-event time) stays at its old
value 0 instead of being reassigned to `totalTime + 3 + jitter = 13`.  The
rescheduling happens at the Dormant-to-Active transition, not here. -/
theorem C5_counterexample :
    (updateMeteorite 10 1 0 0 0 exitingMeteor).isVisible = false ∧
    (updateMeteorite 10 1 0 0 0 exitingMeteor).initialDelay = 0 ∧
    (0 : ℚ) ≠ 10 + 3 + 0 := by
  norm_num [updateMeteorite, exitingMeteor]

/-- C5, amended: an Active meteor whose moved position satisfies `x > 1.2`
or `y < -1.2` becomes Dormant on that same tick with its `nextEventTime`
(`initialDelay`) left unchanged, and it is not drawn in that or subsequent
frames until reactivated (a Dormant slot with its event time in the future
stays Dormant).  The new randomized `nextEventTime` — current time plus the
fixed base delay 3 plus the jitter — and the reposition are both assigned
at the Dormant-to-Active transition. -/
theorem C5_exit_goes_dormant (t dt rx ry j : ℚ) (m : Meteorite) :
    (m.isVisible = true → (m.px + m.vx * dt > 12/10 ∨ m.py + m.vy * dt < -(12/10)) →
      (updateMeteorite t dt rx ry j m).isVisible = false ∧
      (updateMeteorite t dt rx ry j m).initialDelay = m.initialDelay ∧
      (∀ sm : Bool, meteorDrawn sm (updateMeteorite t dt rx ry j m) = false)) ∧
    (m.isVisible = false → ¬ (t > m.initialDelay) →
      updateMeteorite t dt rx ry j m = m) ∧
    (m.isVisible = false → t > m.initialDelay →
      (updateMeteorite t dt rx ry j m).isVisible = true ∧
      (updateMeteorite t dt rx ry j m).px = rx ∧
      (updateMeteorite t dt rx ry j m).py = ry ∧
      (updateMeteorite t dt rx ry j m).initialDelay = t + 3 + j) := by
  refine ⟨?_, ?_, ?_⟩
  · intro hv hout
    rw [updateMeteorite, if_neg (by simp [hv]), if_pos hout]
    exact ⟨rfl, rfl, fun sm => by simp [meteorDrawn]⟩
  · intro hv ht
    rw [updateMeteorite, if_pos hv, if_neg ht]
  · intro hv ht
    rw [updateMeteorite, if_pos hv, if_pos ht]
    exact ⟨rfl, rfl, rfl, rfl⟩

/-- Witness for the amended C5 on the exiting meteor at `totalTime = 10`. -/
theorem C5_witness :
    (updateMeteorite 10 1 0 0 0 exitingMeteor).isVisible = false ∧
    (updateMeteorite 10 1 0 0 0 exitingMeteor).initialDelay =
      exitingMeteor.initialDelay ∧
    (∀ sm : Bool, meteorDrawn sm (updateMeteorite 10 1 0 0 0 exitingMeteor) = false) :=
  (C5_exit_goes_dormant 10 1 0 0 0 exitingMeteor).1 rfl
    (by norm_num [exitingMeteor])

/-! ## Transform composition (renderPlanet, main.cpp:911-985)

4x4 model matrices over the rationals, with the trigonometric functions
given by an abstract oracle `Trig`: `Trig.c a` and `Trig.s a` stand for
`cos(glm::radians(a))` and `sin(glm::radians(a))` for an angle `a` in
degrees.  Matrices are written row by row; `glm::rotate(M, a, axis)`,
`glm::translate(M, v)` and `glm::scale(M, v)` all post-multiply `M`. -/

/-- Abstract trigonometry oracle on angles in degrees. -/
structure Trig where
  c : ℚ → ℚ
  s : ℚ → ℚ

/-- A 4x4 matrix with rational entries, row-major field names. -/
structure Mat4 where
  m00 : ℚ
  m01 : ℚ
  m02 : ℚ
  m03 : ℚ
  m10 : ℚ
  m11 : ℚ
  m12 : ℚ
  m13 : ℚ
  m20 : ℚ
  m21 : ℚ
  m22 : ℚ
  m23 : ℚ
  m30 : ℚ
  m31 : ℚ
  m32 : ℚ
  m33 : ℚ

/-- Matrix product. -/
def Mat4.mul (A B : Mat4) : Mat4 where
  m00 := A.m00 * B.m00 + A.m01 * B.m10 + A.m02 * B.m20 + A.m03 * B.m30
  m01 := A.m00 * B.m01 + A.m01 * B.m11 + A.m02 * B.m21 + A.m03 * B.m31
  m02 := A.m00 * B.m02 + A.m01 * B.m12 + A.m02 * B.m22 + A.m03 * B.m32
  m03 := A.m00 * B.m03 + A.m01 * B.m13 + A.m02 * B.m23 + A.m03 * B.m33
  m10 := A.m10 * B.m00 + A.m11 * B.m10 + A.m12 * B.m20 + A.m13 * B.m30
  m11 := A.m10 * B.m01 + A.m11 * B.m11 + A.m12 * B.m21 + A.m13 * B.m31
  m12 := A.m10 * B.m02 + A.m11 * B.m12 + A.m12 * B.m22 + A.m13 * B.m32
  m13 := A.m10 * B.m03 + A.m11 * B.m13 + A.m12 * B.m23 + A.m13 * B.m33
  m20 := A.m20 * B.m00 + A.m21 * B.m10 + A.m22 * B.m20 + A.m23 * B.m30
  m21 := A.m20 * B.m01 + A.m21 * B.m11 + A.m22 * B.m21 + A.m23 * B.m31
  m22 := A.m20 * B.m02 + A.m21 * B.m12 + A.m22 * B.m22 + A.m23 * B.m32
  m23 := A.m20 * B.m03 + A.m21 * B.m13 + A.m22 * B.m23 + A.m23 * B.m33
  m30 := A.m30 * B.m00 + A.m31 * B.m10 + A.m32 * B.m20 + A.m33 * B.m30
  m31 := A.m30 * B.m01 + A.m31 * B.m11 + A.m32 * B.m21 + A.m33 * B.m31
  m32 := A.m30 * B.m02 + A.m31 * B.m12 + A.m32 * B.m22 + A.m33 * B.m32
  m33 := A.m30 * B.m03 + A.m31 * B.m13 + A.m32 * B.m23 + A.m33 * B.m33

/-- Rotation by `a` degrees about the Y axis (`glm::rotate` with axis
`(0,1,0)`). -/
def rotY (t : Trig) (a : ℚ) : Mat4 :=
  ⟨t.c a, 0, t.s a, 0,
   0, 1, 0, 0,
   -(t.s a), 0, t.c a, 0,
   0, 0, 0, 1⟩

/-- Rotation by `a` degrees about the X axis (`glm::rotate` with axis
`(1,0,0)`). -/
def rotX (t : Trig) (a : ℚ) : Mat4 :=
  ⟨1, 0, 0, 0,
   0, t.c a, -(t.s a), 0,
   0, t.s a, t.c a, 0,
   0, 0, 0, 1⟩

/-- Translation by `(x, y, z)` (`glm::translate`). -/
def translateM (x y z : ℚ) : Mat4 :=
  ⟨1, 0, 0, x,
   0, 1, 0, y,
   0, 0, 1, z,
   0, 0, 0, 1⟩

/-- Anisotropic scale by `(x, y, z)` (`glm::scale`). -/
def scaleM (x y z : ℚ) : Mat4 :=
  ⟨x, 0, 0, 0,
   0, y, 0, 0,
   0, 0, z, 0,
   0, 0, 0, 1⟩

/-- `planetSystem` (main.cpp:913-916): the orbit pivot, a rotation by the
orbit angle about Y followed by the translation to the orbit radius. -/
def planetSystem (t : Trig) (p : Planet) : Mat4 :=
  (rotY t p.orbitAngle).mul (translateM p.orbitRadius 0 0)

/-- `planetModel` (main.cpp:919-922): the orbit pivot followed by the
body's own spin and its scale. -/
def planetModel (t : Trig) (p : Planet) : Mat4 :=
  ((planetSystem t p).mul (rotY t p.rotationAngle)).mul
    (scaleM p.size p.size p.size)

/-- `ringModel` (main.cpp:944-966): starts from `planetSystem` and then
dispatches on the planet's display name; a ringed body whose name is none
of the four listed ones keeps the bare orbit pivot. -/
def ringModel (t : Trig) (p : Planet) : Mat4 :=
  if p.name = "Saturno" then
    ((planetSystem t p).mul (rotX t 23)).mul
      (scaleM (p.size * (17/10)) (p.size * (1/20)) (p.size * (17/10)))
  else if p.name = "Jupiter" then
    ((planetSystem t p).mul (rotX t 3)).mul
      (scaleM (p.size * (7/5)) (p.size * (1/50)) (p.size * (7/5)))
  else if p.name = "Urano" then
    ((planetSystem t p).mul (rotX t 98)).mul
      (scaleM (p.size * (13/10)) (p.size * (3/100)) (p.size * (13/10)))
  else if p.name = "Neptuno" then
    ((planetSystem t p).mul (rotX t 29)).mul
      (scaleM (p.size * (3/2)) (p.size * (1/40)) (p.size * (3/2)))
  else
    planetSystem t p

/-- `moonModel` (main.cpp:977-980): moon orbit about the orbit pivot,
translation to the moon distance, scale to 30% of the planet. -/
def moonModel (t : Trig) (p : Planet) : Mat4 :=
  (((planetSystem t p).mul (rotY t p.moonAngle)).mul
    (translateM p.moonDistance 0 0)).mul
    (scaleM (p.size * (3/10)) (p.size * (3/10)) (p.size * (3/10)))

/-- The Saturn configuration pushed in `main` (main.cpp:1165-1166). -/
def saturno : Planet :=
  { name := "Saturno", orbitRadius := 15/2, orbitSpeed := 97/10,
    orbitAngle := 0, rotationSpeed := 22, rotationAngle := 0, size := 9/20,
    texture := 0, hasMoon := false, moonDistance := 0, moonSpeed := 0,
    moonAngle := 0, moonTexture := 0, hasRing := true, ringTexture := 1 }

/-- The Saturn configuration with only the display name changed. -/
def saturnoRenamed : Planet := { saturno with name := "Planeta" }

/-- A degenerate but concrete trigonometry oracle; the counterexample for
C6 only uses matrix entries that no trigonometric value reaches. -/
def unitTrig : Trig := { c := fun _ => 1, s := fun _ => 0 }

/-- C6 fails as stated: the ring transform IS dispatched on the display
name.  Two ringed bodies identical except for their name (Saturn's
configuration, renamed to an unlisted name) get different ring matrices:
the renamed body keeps the bare orbit pivot, with no tilt and no scale. -/
theorem C6_counterexample :
    saturnoRenamed = { saturno with name := "Planeta" } ∧
    saturno.hasRing = true ∧ saturnoRenamed.hasRing = true ∧
    ringModel unitTrig saturno ≠ ringModel unitTrig saturnoRenamed := by
  refine ⟨rfl, rfl, rfl, ?_⟩
  have hsat : ringModel unitTrig saturno =
      ((planetSystem unitTrig saturno).mul (rotX unitTrig 23)).mul
        (scaleM (saturno.size * (17/10)) (saturno.size * (1/20))
          (saturno.size * (17/10))) := by
    rw [ringModel, if_pos (show saturno.name = "Saturno" from rfl)]
  have hren : ringModel unitTrig saturnoRenamed =
      planetSystem unitTrig saturnoRenamed := by
    rw [ringModel, if_neg (by decide), if_neg (by decide),
      if_neg (by decide), if_neg (by decide)]
  intro h
  rw [hsat, hren] at h
  have hentry := congrArg Mat4.m00 h
  norm_num [planetSystem, rotY, rotX, translateM, scaleM, unitTrig,
    Mat4.mul, saturno, saturnoRenamed] at hentry

/-- C6, amended: for every body the ring matrix is built from the orbit
pivot and never depends on the body's `rotationAngle` (rings do not
inherit the spin); the tilt and anisotropic scale are, however, selected
by the body's display name — Saturno: 23 degrees and (1.7, 0.05, 1.7);
Jupiter: 3 degrees and (1.4, 0.02, 1.4); Urano: 98 degrees and
(1.3, 0.03, 1.3); Neptuno: 29 degrees and (1.5, 0.025, 1.5), each times
`size` — and a ringed body with any other name keeps the bare orbit
pivot with no tilt and no scale. -/
theorem C6_ring_matrix (t : Trig) (p : Planet) :
    (∀ a : ℚ, ringModel t { p with rotationAngle := a } = ringModel t p) ∧
    (p.name = "Saturno" → ringModel t p =
      ((planetSystem t p).mul (rotX t 23)).mul
        (scaleM (p.size * (17/10)) (p.size * (1/20)) (p.size * (17/10)))) ∧
    (p.name = "Jupiter" → ringModel t p =
      ((planetSystem t p).mul (rotX t 3)).mul
        (scaleM (p.size * (7/5)) (p.size * (1/50)) (p.size * (7/5)))) ∧
    (p.name = "Urano" → ringModel t p =
      ((planetSystem t p).mul (rotX t 98)).mul
        (scaleM (p.size * (13/10)) (p.size * (3/100)) (p.size * (13/10)))) ∧
    (p.name = "Neptuno" → ringModel t p =
      ((planetSystem t p).mul (rotX t 29)).mul
        (scaleM (p.size * (3/2)) (p.size * (1/40)) (p.size * (3/2)))) ∧
    (p.name ≠ "Saturno" → p.name ≠ "Jupiter" → p.name ≠ "Urano" →
      p.name ≠ "Neptuno" → ringModel t p = planetSystem t p) := by
  refine ⟨fun a => rfl, ?_, ?_, ?_, ?_, ?_⟩
  · intro h; simp [ringModel, h]
  · intro h; simp [ringModel, h]
  · intro h; simp [ringModel, h]
  · intro h; simp [ringModel, h]
  · intro h1 h2 h3 h4; simp [ringModel, h1, h2, h3, h4]

/-- Witness for the amended C6 at the Saturn configuration. -/
theorem C6_witness :
    ringModel unitTrig saturno =
      ((planetSystem unitTrig saturno).mul (rotX unitTrig 23)).mul
        (scaleM (saturno.size * (17/10)) (saturno.size * (1/20))
          (saturno.size * (17/10))) :=
  (C6_ring_matrix unitTrig saturno).2.1 rfl

/-! ## Camera view computation (main loop, main.cpp:1330-1351) -/

/-- The camera eye position (main.cpp:1335-1338): spherical coordinates
from pitch and yaw in degrees, at the fixed distance from the origin. -/
def cameraPos (t : Trig) (pitch yaw dist : ℚ) : ℚ × ℚ × ℚ :=
  (dist * t.c pitch * t.s yaw, dist * t.s pitch, dist * t.c pitch * t.c yaw)

/-- C7, confirmed: the eye position is
`(d cos(pitch) sin(yaw), d sin(pitch), d cos(pitch) cos(yaw))`; with the
trigonometric boundary values `cos 0 = 1`, `sin 0 = 0`, `cos 90 = 0`,
`sin 90 = 1` it evaluates to `(0, 0, 22)` at pitch 0, yaw 0, distance 22
and to `(22, 0, 0)` at yaw 90. -/
theorem C7_camera_eye (t : Trig) (pitch yaw dist : ℚ)
    (hc0 : t.c 0 = 1) (hs0 : t.s 0 = 0) (hc90 : t.c 90 = 0)
    (hs90 : t.s 90 = 1) :
    cameraPos t pitch yaw dist =
      (dist * t.c pitch * t.s yaw, dist * t.s pitch,
        dist * t.c pitch * t.c yaw) ∧
    cameraPos t 0 0 22 = (0, 0, 22) ∧
    cameraPos t 0 90 22 = (22, 0, 0) := by
  refine ⟨rfl, ?_, ?_⟩ <;> simp [cameraPos, hc0, hs0, hc90, hs90]

/-- A concrete oracle realizing the four boundary values used by C7. -/
def boundaryTrig : Trig :=
  { c := fun a => if a = 0 then 1 else 0
    s := fun a => if a = 90 then 1 else 0 }

/-- Witness for C7 at the `boundaryTrig` oracle with pitch 0, yaw 0,
distance 22. -/
theorem C7_witness :
    cameraPos boundaryTrig 0 0 22 =
      (22 * boundaryTrig.c 0 * boundaryTrig.s 0, 22 * boundaryTrig.s 0,
        22 * boundaryTrig.c 0 * boundaryTrig.c 0) ∧
    cameraPos boundaryTrig 0 0 22 = (0, 0, 22) ∧
    cameraPos boundaryTrig 0 90 22 = (22, 0, 0) :=
  C7_camera_eye boundaryTrig 0 0 22 (by norm_num [boundaryTrig])
    (by norm_num [boundaryTrig]) (by norm_num [boundaryTrig])
    (by norm_num [boundaryTrig])

/-- The up vector before renormalization (main.cpp:1341-1346): `(0,1,0)`
by default; when `|pitch| > 70` the Y component becomes the blend factor
`(90 - |pitch|) / 20` and the Z component `±(1 - factor)`, with the sign
opposing the pitch. -/
def upVectorRaw (pitch : ℚ) : ℚ × ℚ × ℚ :=
  if 70 < |pitch| then
    (0, (90 - |pitch|) / 20,
      if 0 < pitch then -(1 - (90 - |pitch|) / 20) else 1 - (90 - |pitch|) / 20)
  else (0, 1, 0)

/-- Squared euclidean norm of a 3-vector; `glm::normalize` divides by its
square root, so a nonzero value (here exactly 1) certifies that the
normalization is well defined and produces no NaN. -/
def sqNorm3 (v : ℚ × ℚ × ℚ) : ℚ := v.1 ^ 2 + v.2.1 ^ 2 + v.2.2 ^ 2

/-- C8, confirmed: pitch exactly 90 is reachable through the clamp (one
mouse event with a pitch delta of 200 from the start state); at pitch
±90 the blend factor is 0, the pre-normalization up vector is the nonzero
unit vector `(0, 0, ∓1)`, and its squared norm is 1, so renormalization
is well defined and NaN-free. -/
theorem C8_pole_up_vector :
    (camAfter [CamOp.mouse 200 0]).1 = 90 ∧
    (90 - |(90 : ℚ)|) / 20 = 0 ∧ (90 - |(-90 : ℚ)|) / 20 = 0 ∧
    upVectorRaw 90 = (0, 0, -1) ∧ upVectorRaw (-90) = (0, 0, 1) ∧
    sqNorm3 (upVectorRaw 90) = 1 ∧ sqNorm3 (upVectorRaw (-90)) = 1 ∧
    sqNorm3 (upVectorRaw 90) ≠ 0 ∧ sqNorm3 (upVectorRaw (-90)) ≠ 0 := by
  have h90 : upVectorRaw 90 = (0, 0, -1) := by
    norm_num [upVectorRaw]
  have hm90 : upVectorRaw (-90) = (0, 0, 1) := by
    norm_num [upVectorRaw]
  refine ⟨?_, by norm_num, by norm_num, h90, hm90, ?_, ?_, ?_, ?_⟩
  · norm_num [camAfter, camStep, applyPitchDelta, applyYawDelta, maxPitch,
      minPitch]
  all_goals simp only [h90, hm90]
  all_goals norm_num [sqNorm3]

/-! ## Sphere geometry generator (createSphere, main.cpp:695-761) -/

/-- `sectorCount` (main.cpp:697). -/
def sectorCount : ℕ := 36

/-- `stackCount` (main.cpp:698). -/
def stackCount : ℕ := 18

/-- The sphere radius (main.cpp:699). -/
def sphereRadius : ℚ := 1

/-- The PI literal of the source (main.cpp:696). -/
def piLit : ℚ := 314159265359 / 100000000000

/-- The up-to-six indices the inner loop body pushes for the quad at stack
`i`, sector `j` (main.cpp:746-759): the upper triangle is skipped on the
first stack, the lower one on the last. -/
def quadIndices (i j : ℕ) : List ℕ :=
  let k1 := i * (sectorCount + 1) + j
  let k2 := k1 + sectorCount + 1
  (if i ≠ 0 then [k1, k2, k1 + 1] else []) ++
  (if i ≠ stackCount - 1 then [k1 + 1, k2, k2 + 1] else [])

/-- The full index buffer of `createSphere` (main.cpp:741-760). -/
def createSphereIndices : List ℕ :=
  (List.range stackCount).flatMap fun i =>
    (List.range sectorCount).flatMap fun j => quadIndices i j

/-- The eight floats pushed per vertex (main.cpp:714-737): position,
normal (position times `1 / radius`), and UV; `c`, `s` are the C library
`cosf` and `sinf` on radian arguments. -/
def vertexData (c s : ℚ → ℚ) (i j : ℕ) : List ℚ :=
  let stackAngle : ℚ := piLit / 2 - (i : ℚ) * (piLit / (stackCount : ℚ))
  let sectorAngle : ℚ := (j : ℚ) * (2 * piLit / (sectorCount : ℚ))
  let xy := sphereRadius * c stackAngle
  let z := sphereRadius * s stackAngle
  let x := xy * c sectorAngle
  let y := xy * s sectorAngle
  let lengthInv := 1 / sphereRadius
  [x, y, z, x * lengthInv, y * lengthInv, z * lengthInv,
   (j : ℚ) / (sectorCount : ℚ), (i : ℚ) / (stackCount : ℚ)]

/-- The full vertex buffer of `createSphere` (main.cpp:709-738). -/
def createSphereVertices (c s : ℚ → ℚ) : List ℚ :=
  (List.range (stackCount + 1)).flatMap fun i =>
    (List.range (sectorCount + 1)).flatMap fun j => vertexData c s i j

/-- Length of a `flatMap` as the sum of the mapped lengths. -/
theorem flatMapLenSum {α β : Type} (l : List α) (f : α → List β) :
    (l.flatMap f).length = (l.map fun a => (f a).length).sum := by
  induction l with
  | nil => rfl
  | cons a l ih => simp [List.flatMap_cons, ih]

/-- Length of a `flatMap` whose blocks all have the same length. -/
theorem flatMapLenConst {α β : Type} (l : List α) (f : α → List β) (n : ℕ)
    (h : ∀ a ∈ l, (f a).length = n) : (l.flatMap f).length = l.length * n := by
  induction l with
  | nil => simp
  | cons a l ih =>
      rw [List.flatMap_cons, List.length_append,
        h a (List.mem_cons_self a l),
        ih (fun b hb => h b (List.mem_cons_of_mem a hb)), List.length_cons]
      ring

/-- Every index the generator emits addresses one of the
`(stackCount + 1) * (sectorCount + 1)` generated vertices. -/
theorem sphere_index_bound :
    ∀ n ∈ createSphereIndices, n < (stackCount + 1) * (sectorCount + 1) := by
  intro n hn
  rw [createSphereIndices] at hn
  simp only [List.mem_flatMap, List.mem_range] at hn
  obtain ⟨i, hi, j, hj, hmem⟩ := hn
  simp only [quadIndices, List.mem_append, List.mem_cons,
    List.not_mem_nil, or_false] at hmem
  simp only [sectorCount, stackCount] at hi hj hmem ⊢
  rcases hmem with h | h <;> split_ifs at h <;>
    simp only [List.mem_cons, List.not_mem_nil, or_false] at h <;>
    rcases h with rfl | rfl | rfl <;> omega

/-- C9, confirmed: the generator with `sectorCount = 36`, `stackCount = 18`
emits `3 * 36 * (2 * 18 - 2) = 3672` indices (two triangles per quad
except one at each pole), every index addresses one of the
`19 * 37 = 703` emitted vertices, and the vertex buffer holds exactly
`703 * 8` floats. -/
theorem C9_sphere_mesh (c s : ℚ → ℚ) :
    createSphereIndices.length = 3 * sectorCount * (2 * stackCount - 2) ∧
    3 * sectorCount * (2 * stackCount - 2) = 3672 ∧
    createSphereIndices.all
      (fun n => decide (n < (stackCount + 1) * (sectorCount + 1))) = true ∧
    (stackCount + 1) * (sectorCount + 1) = 703 ∧
    (createSphereVertices c s).length =
      (stackCount + 1) * (sectorCount + 1) * 8 := by
  refine ⟨?_, by norm_num [sectorCount, stackCount], ?_, ?_, ?_⟩
  · rw [createSphereIndices, flatMapLenSum]
    have hinner : ∀ i ∈ List.range stackCount,
        ((List.range sectorCount).flatMap fun j => quadIndices i j).length =
          sectorCount *
            ((if i ≠ 0 then 3 else 0) + (if i ≠ stackCount - 1 then 3 else 0)) := by
      intro i hi
      rw [flatMapLenConst _ _
        ((if i ≠ 0 then 3 else 0) + (if i ≠ stackCount - 1 then 3 else 0))
        (fun j hj => by
          by_cases h0 : i = 0 <;> by_cases h1 : i = 17 <;>
            simp [quadIndices, h0, h1, stackCount, sectorCount]),
        List.length_range]
    rw [List.map_congr_left hinner]
    decide
  · rw [List.all_eq_true]
    intro n hn
    rw [decide_eq_true_iff]
    exact sphere_index_bound n hn
  · rfl
  · rw [createSphereVertices]
    rw [flatMapLenConst _ _ ((sectorCount + 1) * 8) (fun i hi => by
      rw [flatMapLenConst _ _ 8 (fun j hj => by simp [vertexData]),
        List.length_range])]
    rw [List.length_range]
    ring

/-! ## Meteor count clamp (UI handler, main.cpp:1301-1308) -/

/-- `MAX_METEORITES` (main.cpp:55): the meteor pool holds six slots. -/
def MAX_METEORITES : ℕ := 6

/-- The clamp applied whenever the meteor count field is edited in the UI
(main.cpp:1303-1306): first raise to 1, then lower to 6. -/
def clampMeteoriteCount (n : ℤ) : ℤ :=
  let n1 := if n < 1 then 1 else n
  if n1 > 6 then 6 else n1

/-- C10, confirmed: an edited meteor count is clamped into `[1, 6]`, the
upper bound 6 is exactly `MAX_METEORITES`, and therefore every index `i`
of the per-frame update and draw loops — which run `i` from 0 below the
clamped count — stays inside the six-slot meteor pool. -/
theorem C10_meteor_count_safe (n : ℤ) :
    (1 ≤ clampMeteoriteCount n ∧ clampMeteoriteCount n ≤ 6) ∧
    MAX_METEORITES = 6 ∧
    clampMeteoriteCount n ≤ (MAX_METEORITES : ℤ) ∧
    (List.range (clampMeteoriteCount n).toNat).all
      (fun i => decide (i < MAX_METEORITES)) = true := by
  have h1 : 1 ≤ clampMeteoriteCount n ∧ clampMeteoriteCount n ≤ 6 := by
    rw [clampMeteoriteCount]
    split_ifs <;> constructor <;> omega
  refine ⟨h1, rfl, ?_, ?_⟩
  · have : ((MAX_METEORITES : ℕ) : ℤ) = 6 := rfl
    rw [this]
    exact h1.2
  · rw [List.all_eq_true]
    intro i hi
    rw [List.mem_range] at hi
    rw [decide_eq_true_iff, MAX_METEORITES]
    have h2 := h1.2
    omega

end SolarSystem
